import Mathlib

/-!
Verification of the Reddit persona pipeline (`reddit_persona.py`).

The program is embedded shallowly: strings are lists of characters, the
regex-based username extraction is modelled by an explicit left-to-right
scan with the same semantics as `re.search` on the patterns
`reddit\.com/u/([^/]+)`, `reddit\.com/user/([^/]+)`,
`reddit\.com/users/([^/]+)`; the external Reddit and Groq services are
oracles supplied as parameters; the two presentation shells are modelled
as functions producing the list of externally observable events
(content-API fetches, LLM chat-completion calls, file writes) together
with an outcome.
-/

namespace RedditPersona

/-- Strings are modelled as lists of characters. -/
abbrev Str := List Char

/-- Boolean test that `lit` is a prefix of `s` (character-wise equality). -/
def beginsWith : Str → Str → Bool
  | [], _ => true
  | _ :: _, [] => false
  | a :: as, b :: bs => a = b && beginsWith as bs

/-- A post as built by `RedditScraper.scrape_user_data` (the numeric
`created_utc` timestamp is modelled as an integer). -/
structure Post where
  id : Str
  title : Str
  selftext : Str
  subreddit : Str
  score : Int
  created_utc : Int
  url : Str
  deriving DecidableEq

/-- A comment as built by `RedditScraper.scrape_user_data`. -/
structure Comment where
  id : Str
  body : Str
  subreddit : Str
  score : Int
  created_utc : Int
  url : Str
  deriving DecidableEq

/-- The dictionary returned by `RedditScraper.scrape_user_data`. -/
structure UserData where
  username : Str
  posts : List Post
  comments : List Comment
  total_posts : Nat
  total_comments : Nat

/-- Model of `re.search(lit ++ "([^/]+)", s)`: scan left to right; at the
first position where the literal `lit` occurs followed by at least one
non-`'/'` character, return the maximal run of non-`'/'` characters
after the literal (the greedy capture of `[^/]+`); otherwise `none`. -/
def searchCap (lit : Str) : Str → Option Str
  | [] => none
  | c :: rest =>
    if beginsWith lit (c :: rest) then
      let cap := ((c :: rest).drop lit.length).takeWhile (fun ch => ch != '/')
      if cap ≠ [] then some cap else searchCap lit rest
    else searchCap lit rest

/-- The ordered pattern literals of `extract_username_from_url`
(each Python pattern is `literal` followed by `([^/]+)`). -/
def username_patterns : List Str :=
  ["reddit.com/u/".toList, "reddit.com/user/".toList, "reddit.com/users/".toList]

/-- The `for pattern in patterns` loop: first successful search wins. -/
def searchFirst : List Str → Str → Option Str
  | [], _ => none
  | p :: ps, url =>
    match searchCap p url with
    | some c => some c
    | none => searchFirst ps url

/-- `RedditScraper.extract_username_from_url`. -/
def extract_username_from_url (url : Str) : Except Str Str :=
  match searchFirst username_patterns url with
  | some n => Except.ok n
  | none => Except.error ("Invalid Reddit URL format: ".toList ++ url)

/-- The line emitted for a post by `PersonaGenerator._prepare_content`:
`if post['title'] and post['selftext']` emit the full line,
`elif post['title']` emit the title-only line, otherwise nothing. -/
def postLine (p : Post) : Option Str :=
  if p.title ≠ [] ∧ p.selftext ≠ [] then
    some ("POST [".toList ++ p.id ++ "]: ".toList ++ p.title ++ " - ".toList
      ++ p.selftext.take 500)
  else if p.title ≠ [] then
    some ("POST [".toList ++ p.id ++ "]: ".toList ++ p.title)
  else none

/-- The line emitted for a comment by `PersonaGenerator._prepare_content`:
`if comment['body'] and len(comment['body']) > 10`. -/
def commentLine (c : Comment) : Option Str :=
  if c.body ≠ [] ∧ c.body.length > 10 then
    some ("COMMENT [".toList ++ c.id ++ "]: ".toList ++ c.body.take 500)
  else none

/-- The list of lines built by `PersonaGenerator._prepare_content`:
first 50 posts, then first 50 comments. -/
def prepare_content_lines (ud : UserData) : List Str :=
  (ud.posts.take 50).filterMap postLine ++ (ud.comments.take 50).filterMap commentLine

/-- `PersonaGenerator._prepare_content`: the lines joined by blank lines. -/
def prepare_content (ud : UserData) : Str :=
  List.intercalate "\n\n".toList (prepare_content_lines ud)

/-- Recognizes a post line of the excerpt. -/
def isPostLine (l : Str) : Bool := beginsWith "POST [".toList l

/-- Recognizes a comment line of the excerpt. -/
def isCommentLine (l : Str) : Bool := beginsWith "COMMENT [".toList l

/-- The file system visible to `PersonaFileManager`: the set of existing
directories and a map from paths to the contents of existing plain
files. -/
structure FS where
  dirs : List Str
  files : Str → Option Str

/-- `os.path.exists`: satisfied by directories and plain files alike. -/
def os_path_exists (fs : FS) (p : Str) : Bool :=
  decide (p ∈ fs.dirs) || (fs.files p).isSome

/-- `os.path.join(dir, fname)` on POSIX: an absolute `fname` (one
beginning with `'/'`) discards `dir` entirely. -/
def os_path_join (dir fname : Str) : Str :=
  if beginsWith "/".toList fname then fname else dir ++ "/".toList ++ fname

/-- The directory component of a path: everything before the last `'/'`
(empty for a bare relative name, and also for a root-level absolute
path — the working directory and the filesystem root always exist). -/
def dirname (p : Str) : Str :=
  match p.reverse.dropWhile (fun c => c != '/') with
  | [] => []
  | _ :: rest => rest.reverse

/-- `PersonaFileManager.ensure_output_directory`: `os.makedirs("output")`
guarded by `os.path.exists` — a no-op when anything named `output`
exists, even a plain file (the later `open` then fails). -/
def ensure_output_directory (fs : FS) : FS × Str :=
  if os_path_exists fs "output".toList then (fs, "output".toList)
  else ({ fs with dirs := "output".toList :: fs.dirs }, "output".toList)

/-- `PersonaFileManager.save_persona`: builds the path with
`os.path.join` and opens it with mode `'w'` (truncating overwrite),
writing the persona then the timestamp line and returning the path.
`open` succeeds only when the parent of the path exists as a directory
(the working directory and the root always do) and no directory
occupies the path itself; otherwise it raises.  The timestamp text
produced by `datetime.now().strftime` is a parameter. -/
def save_persona (persona : Str) (username : Str) (ts : Str) (fs : FS) :
    Except Str (FS × Str) :=
  let r := ensure_output_directory fs
  let filepath := os_path_join r.2 (username ++ "_digital_profile.txt".toList)
  if (dirname filepath = [] ∨ dirname filepath ∈ r.1.dirs) ∧ filepath ∉ r.1.dirs then
    Except.ok
      ({ r.1 with
          files := fun p =>
            if p = filepath then
              some (persona ++ "\n\nProfile Generated: ".toList ++ ts)
            else r.1.files p },
        filepath)
  else Except.error ("could not open ".toList ++ filepath)

/-- The path of a successful save, if any. -/
def savedPath (r : Except Str (FS × Str)) : Option Str :=
  match r with
  | Except.ok x => some x.2
  | Except.error _ => none

/-- The module-level credentials read by `get_api_key` (absent = `None`). -/
structure Config where
  redditClientId : Option Str
  redditClientSecret : Option Str
  groqApiKey : Option Str

/-- Behaviour of the external collaborators during one run: whether the
target Reddit account resolves; the outcome of each content fetch at a
given limit, as a praw batch iterator — `(items, failure)` gives the
items it yielded before it either finished (`failure = none`) or raised
mid-stream (`failure = some e`, possibly after yielding some items,
since praw listings fetch in batches during iteration); and the
outcomes of the two LLM chat-completion calls (the synthesis call
receives the excerpt). -/
structure Oracles where
  userExists : Bool
  postsFetch : Nat → List Post × Option Str
  commentsFetch : Nat → List Comment × Option Str
  llmTest : Except Str Unit
  llmGen : Str → Except Str Str

/-- Externally observable actions of a run. -/
inductive Event where
  | fetchUser
  | fetchPosts
  | fetchComments
  | llmCall (maxTokens : Nat)
  | fileWrite (path : Str)
  deriving DecidableEq

/-- Content-API calls for the target user. -/
def Event.isContentFetch : Event → Bool
  | fetchUser => true
  | fetchPosts => true
  | fetchComments => true
  | _ => false

/-- LLM chat-completion calls. -/
def Event.isLLMCall : Event → Bool
  | llmCall _ => true
  | _ => false

/-- File writes. -/
def Event.isFileWrite : Event → Bool
  | fileWrite _ => true
  | _ => false

/-- `RedditScraper.scrape_user_data`: the user-existence check is one
content-API access; then both fetches are attempted.  Each `for`/
`append` loop runs inside a `try`, so the items yielded before a
mid-stream failure are retained; the failure itself is caught, printed
as a warning, and not propagated.  The returned counts are the lengths
of the collected (possibly partial) lists.  Result:
(events, printed warnings, result). -/
def scrape_user_data (username : Str) (limit : Nat) (o : Oracles) :
    List Event × List Str × Except Str UserData :=
  if o.userExists then
    let pr := o.postsFetch limit
    let pwarn : List Str :=
      match pr.2 with
      | none => []
      | some e => ["Error scraping posts: ".toList ++ e]
    let cr := o.commentsFetch limit
    let cwarn : List Str :=
      match cr.2 with
      | none => []
      | some e => ["Error scraping comments: ".toList ++ e]
    ([Event.fetchUser, Event.fetchPosts, Event.fetchComments],
      pwarn ++ cwarn,
      Except.ok
        { username := username
          posts := pr.1
          comments := cr.1
          total_posts := pr.1.length
          total_comments := cr.1.length })
  else
    ([Event.fetchUser], [],
      Except.error ("Error scraping user data: User '".toList ++ username
        ++ "' not found or suspended".toList))

/-- `PersonaGenerator.generate_persona`: one chat-completion call with
`max_tokens=4000` whose prompt embeds the excerpt built by
`_prepare_content`; an error is wrapped. -/
def generate_persona (ud : UserData) (o : Oracles) : List Event × Except Str Str :=
  ([Event.llmCall 4000],
    match o.llmGen (prepare_content ud) with
    | Except.ok t => Except.ok t
    | Except.error e => Except.error ("Error generating persona: ".toList ++ e))

/-- Outcome of a Streamlit run. -/
inductive Outcome where
  | success
  | configError
  | failure
  deriving DecidableEq

/-- The deterministic report path used by `PersonaFileManager.save_persona`. -/
def savePath (username : Str) : Str :=
  "output/".toList ++ username ++ "_digital_profile.txt".toList

/-- The `streamlit_app` analysis flow behind the button: empty-URL check,
Reddit-credential check, Groq-credential check, then extract → scrape →
one-token test LLM call → persona generation → save. -/
def streamlit_run (cfg : Config) (url : Str) (limit : Nat) (o : Oracles) :
    List Event × Outcome :=
  if url = [] then ([], Outcome.failure)
  else if cfg.redditClientId = none ∨ cfg.redditClientSecret = none then
    ([], Outcome.configError)
  else if cfg.groqApiKey = none then ([], Outcome.configError)
  else
    match extract_username_from_url url with
    | Except.error _ => ([], Outcome.failure)
    | Except.ok username =>
      let s := scrape_user_data username limit o
      match s.2.2 with
      | Except.error _ => (s.1, Outcome.failure)
      | Except.ok ud =>
        let ev2 := s.1 ++ [Event.llmCall 1]
        match o.llmTest with
        | Except.error _ => (ev2, Outcome.failure)
        | Except.ok _ =>
          let g := generate_persona ud o
          match g.2 with
          | Except.error _ => (ev2 ++ g.1, Outcome.failure)
          | Except.ok _ =>
            (ev2 ++ g.1 ++ [Event.fileWrite (savePath username)], Outcome.success)

/-- `command_line_interface`: the parsed `--output` value is accepted but
never used by the pipeline.  praw's constructor rejects a missing
client id (an explicit `client_secret=None` is accepted, so only the id
short-circuits); the Groq client constructor rejects a missing api key,
which happens only after the scrape.  Returns (events, exit code). -/
def cli_run (cfg : Config) (url : Str) (_outputArg : Str) (depth : Nat) (o : Oracles) :
    List Event × Nat :=
  if cfg.redditClientId = none then ([], 1)
  else
    match extract_username_from_url url with
    | Except.error _ => ([], 1)
    | Except.ok username =>
      let s := scrape_user_data username depth o
      match s.2.2 with
      | Except.error _ => (s.1, 1)
      | Except.ok ud =>
        match cfg.groqApiKey with
        | none => (s.1, 1)
        | some _ =>
          let ev2 := s.1 ++ [Event.llmCall 1]
          match o.llmTest with
          | Except.error _ => (ev2, 1)
          | Except.ok _ =>
            let g := generate_persona ud o
            match g.2 with
            | Except.error _ => (ev2 ++ g.1, 1)
            | Except.ok _ =>
              (ev2 ++ g.1 ++ [Event.fileWrite (savePath username)], 0)

/-- Spec-side characterization of a URL matching the shape
`.../<lit><name>`: the pattern literal occurs somewhere in the string,
followed by at least one non-`'/'` character (which is exactly when
`re.search(lit ++ "([^/]+)", s)` succeeds). -/
def HasMatch (lit s : Str) : Prop := ∃ p c t, s = p ++ lit ++ c :: t ∧ c ≠ '/'

/-- Spec-side characterization of the first captured group of
`re.search(lit ++ "([^/]+)", s)`: `name` is a non-empty maximal run of
non-`'/'` characters right after an occurrence of `lit`, and no
occurrence of `lit` followed by a non-`'/'` character starts earlier. -/
def IsFirstCapture (lit s name : Str) : Prop :=
  ∃ p t, s = p ++ lit ++ name ++ t ∧ name ≠ [] ∧ (∀ c ∈ name, c ≠ '/') ∧
    (t = [] ∨ ∃ t', t = '/' :: t') ∧
    ∀ p' c' t', s = p' ++ lit ++ c' :: t' → c' ≠ '/' → p.length ≤ p'.length

/-- A path denotes a file directly inside `dir` (no further separators,
hence no escape from the directory). -/
def DirectlyInside (dir path : Str) : Prop :=
  ∃ fname, path = dir ++ '/' :: fname ∧ fname ≠ [] ∧ ∀ c ∈ fname, c ≠ '/'

/-! Concrete fixtures used by witnesses and counterexamples. -/

/-- A configuration with all three credentials present. -/
def cfgFull : Config :=
  { redditClientId := some "rid".toList
    redditClientSecret := some "rsec".toList
    groqApiKey := some "gkey".toList }

/-- A configuration whose LLM (Groq) key is absent. -/
def cfgNoGroq : Config :=
  { redditClientId := some "rid".toList
    redditClientSecret := some "rsec".toList
    groqApiKey := none }

/-- A sample post with a title and a body. -/
def postA : Post :=
  { id := "a1".toList, title := "First post".toList
    selftext := "body text one".toList, subreddit := "sub".toList
    score := 5, created_utc := 1700000000
    url := "https://reddit.com/p/a1".toList }

/-- A sample post with an empty title but a non-empty body. -/
def postNoTitle : Post :=
  { id := "b2".toList, title := []
    selftext := "an untitled body".toList, subreddit := "sub".toList
    score := 1, created_utc := 1700000001
    url := "https://reddit.com/p/b2".toList }

/-- A sample post with a title and no body. -/
def postC : Post :=
  { id := "c3".toList, title := "Third".toList
    selftext := [], subreddit := "sub".toList
    score := 2, created_utc := 1700000002
    url := "https://reddit.com/p/c3".toList }

/-- Oracles for a fully successful run with no content. -/
def oraclesOk : Oracles :=
  { userExists := true
    postsFetch := fun _ => ([], none)
    commentsFetch := fun _ => ([], none)
    llmTest := Except.ok ()
    llmGen := fun _ => Except.ok "persona text".toList }

/-- Oracles where the posts fetch succeeds with three posts. -/
def oraclesThreePosts : Oracles :=
  { oraclesOk with postsFetch := fun _ => ([postA, postNoTitle, postC], none) }

/-- Oracles where the comments fetch fails before yielding anything and
the posts fetch succeeds with an empty list (a user with no posts). -/
def oraclesCommentsFail : Oracles :=
  { oraclesOk with commentsFetch := fun _ => ([], some "HTTP 503".toList) }

/-- A titled post used alongside `postA` and `postC`. -/
def postD : Post :=
  { id := "d4".toList, title := "Fourth".toList
    selftext := "body of the fourth".toList, subreddit := "sub".toList
    score := 3, created_utc := 1700000003
    url := "https://reddit.com/p/d4".toList }

/-- A comment whose body has length 2 (≤ 10). -/
def commentShort : Comment :=
  { id := "cs".toList, body := "ok".toList, subreddit := "sub".toList
    score := 0, created_utc := 1700000004
    url := "https://reddit.com/c/cs".toList }

/-- A comment whose body has length > 10. -/
def commentLong : Comment :=
  { id := "cl".toList, body := "a sufficiently long comment body".toList
    subreddit := "sub".toList, score := 0, created_utc := 1700000005
    url := "https://reddit.com/c/cl".toList }

/-- Collection Result with three posts, one of which has an empty
title, and no comments. -/
def udThreePosts : UserData :=
  { username := "alice".toList, posts := [postA, postNoTitle, postC]
    comments := [], total_posts := 3, total_comments := 0 }

/-- Collection Result with three posts, all with non-empty titles, and
no comments. -/
def udThreeTitled : UserData :=
  { username := "alice".toList, posts := [postA, postC, postD]
    comments := [], total_posts := 3, total_comments := 0 }

/-- Collection Result with one post and two comments. -/
def udSample : UserData :=
  { username := "alice".toList, posts := [postA]
    comments := [commentShort, commentLong], total_posts := 1, total_comments := 2 }

/-- The empty Collection Result for user alice. -/
def udEmpty : UserData :=
  { username := "alice".toList, posts := [], comments := []
    total_posts := 0, total_comments := 0 }

/-- An empty file system. -/
def fs0 : FS := { dirs := [], files := fun _ => none }

/-- Oracles where the posts fetch yields one post and the comments
fetch raises mid-stream after yielding one comment. -/
def oraclesCommentsMidFail : Oracles :=
  { oraclesOk with
    postsFetch := fun _ => ([postA], none)
    commentsFetch := fun _ => ([commentLong], some "HTTP 503".toList) }

/-- A file system where `output` exists as a directory. -/
def fsOutDir : FS := { dirs := ["output".toList], files := fun _ => none }

/-- A file system where `output` exists as a plain file. -/
def fsOutFile : FS :=
  { dirs := []
    files := fun p => if p = "output".toList then some "junk".toList else none }

end RedditPersona

namespace RedditPersona

/-! ### Helper lemmas about the search machinery -/

theorem beginsWith_iff (lit : Str) : ∀ s : Str, beginsWith lit s = true ↔ ∃ t, s = lit ++ t := by
  induction lit with
  | nil => intro s; simp [beginsWith]
  | cons a as ih =>
    intro s
    cases s with
    | nil => simp [beginsWith]
    | cons b bs =>
      simp only [beginsWith, Bool.and_eq_true, decide_eq_true_eq, ih bs,
        List.cons_append, List.cons.injEq]
      constructor
      · rintro ⟨rfl, t, rfl⟩; exact ⟨t, rfl, rfl⟩
      · rintro ⟨t, rfl, rfl⟩; exact ⟨rfl, t, rfl⟩

theorem beginsWith_append (lit t : Str) : beginsWith lit (lit ++ t) = true :=
  (beginsWith_iff lit (lit ++ t)).mpr ⟨t, rfl⟩

theorem searchCap_cons (lit : Str) (c : Char) (rest : Str) :
    searchCap lit (c :: rest) =
      if beginsWith lit (c :: rest) then
        (if ((c :: rest).drop lit.length).takeWhile (fun ch => ch != '/') ≠ [] then
          some (((c :: rest).drop lit.length).takeWhile (fun ch => ch != '/'))
        else searchCap lit rest)
      else searchCap lit rest := rfl

theorem hasMatch_cons (lit : Str) (a : Char) (rest : Str) :
    HasMatch lit (a :: rest) ↔
      (∃ c t, a :: rest = lit ++ c :: t ∧ c ≠ '/') ∨ HasMatch lit rest := by
  constructor
  · rintro ⟨p, c, t, heq, hc⟩
    cases p with
    | nil => exact Or.inl ⟨c, t, by simpa using heq, hc⟩
    | cons x p' =>
      right
      rw [List.cons_append, List.cons_append, List.cons.injEq] at heq
      exact ⟨p', c, t, heq.2, hc⟩
  · rintro (⟨c, t, heq, hc⟩ | ⟨p, c, t, heq, hc⟩)
    · exact ⟨[], c, t, by simpa using heq, hc⟩
    · exact ⟨a :: p, c, t, by simp [heq], hc⟩

theorem matchAtZero_iff (lit s : Str) :
    (∃ c t, s = lit ++ c :: t ∧ c ≠ '/') ↔
      (beginsWith lit s = true ∧
        (s.drop lit.length).takeWhile (fun ch => ch != '/') ≠ []) := by
  constructor
  · rintro ⟨c, t, rfl, hc⟩
    refine ⟨beginsWith_append _ _, ?_⟩
    rw [List.drop_left, List.takeWhile_cons]
    simp [hc]
  · rintro ⟨hb, hne⟩
    obtain ⟨t0, rfl⟩ := (beginsWith_iff lit s).mp hb
    rw [List.drop_left] at hne
    cases t0 with
    | nil => simp at hne
    | cons c t =>
      rw [List.takeWhile_cons] at hne
      by_cases hc : c = '/'
      · simp [hc] at hne
      · exact ⟨c, t, rfl, hc⟩

theorem searchCap_eq_none_iff (lit : Str) :
    ∀ s : Str, searchCap lit s = none ↔ ¬ HasMatch lit s := by
  intro s
  induction s with
  | nil =>
    simp only [searchCap, true_iff]
    rintro ⟨p, c, t, h, _⟩
    have hl := congrArg List.length h
    simp [List.length_append] at hl
    omega
  | cons a rest ih =>
    rw [searchCap_cons]
    by_cases hb : beginsWith lit (a :: rest) = true
    · rw [if_pos hb]
      by_cases hcap : ((a :: rest).drop lit.length).takeWhile (fun ch => ch != '/') ≠ []
      · rw [if_pos hcap]
        have hm : HasMatch lit (a :: rest) :=
          (hasMatch_cons lit a rest).mpr
            (Or.inl ((matchAtZero_iff lit (a :: rest)).mpr ⟨hb, hcap⟩))
        simp [hm]
      · rw [if_neg hcap]
        rw [ih, not_iff_not, hasMatch_cons]
        constructor
        · exact Or.inr
        · rintro (h0 | h)
          · exact absurd ((matchAtZero_iff lit (a :: rest)).mp h0).2 hcap
          · exact h
    · rw [if_neg hb]
      rw [ih, not_iff_not, hasMatch_cons]
      constructor
      · exact Or.inr
      · rintro (h0 | h)
        · exact absurd ((matchAtZero_iff lit (a :: rest)).mp h0).1 hb
        · exact h

theorem dropWhile_head_false {q : Char → Bool} : ∀ {l r : List Char} {c : Char},
    l.dropWhile q = c :: r → q c = false := by
  intro l
  induction l with
  | nil => intro r c h; simp [List.dropWhile] at h
  | cons a t ih =>
    intro r c h
    by_cases hq : q a
    · rw [List.dropWhile_cons_of_pos hq] at h
      exact ih h
    · rw [List.dropWhile_cons_of_neg hq] at h
      rw [List.cons.injEq] at h
      rw [← h.1]
      exact Bool.eq_false_iff.mpr hq

theorem searchCap_eq_some (lit : Str) : ∀ (s cap : Str),
    searchCap lit s = some cap → IsFirstCapture lit s cap := by
  intro s
  induction s with
  | nil => intro cap h; simp [searchCap] at h
  | cons a rest ih =>
    intro cap h
    rw [searchCap_cons] at h
    by_cases hb : beginsWith lit (a :: rest) = true
    · rw [if_pos hb] at h
      by_cases hcap : ((a :: rest).drop lit.length).takeWhile (fun ch => ch != '/') ≠ []
      · rw [if_pos hcap] at h
        obtain ⟨t0, heq0⟩ := (beginsWith_iff lit (a :: rest)).mp hb
        have hd : (a :: rest).drop lit.length = t0 := by rw [heq0, List.drop_left]
        rw [hd] at h hcap
        rw [Option.some.injEq] at h
        refine ⟨[], t0.dropWhile (fun ch => ch != '/'), ?_, ?_, ?_, ?_, ?_⟩
        · rw [List.nil_append, ← h, List.append_assoc, List.takeWhile_append_dropWhile]
          exact heq0
        · rw [← h]; exact hcap
        · intro c hc
          have := List.mem_takeWhile_imp (h ▸ hc)
          simpa using this
        · cases hdw : t0.dropWhile (fun ch => ch != '/') with
          | nil => exact Or.inl rfl
          | cons c' t' =>
            have hq := dropWhile_head_false hdw
            have : c' = '/' := by simpa using hq
            exact Or.inr ⟨t', by rw [this]⟩
        · intro p' c' t' _ _; exact Nat.zero_le _
      · rw [if_neg hcap] at h
        obtain ⟨p, t, heq, hne, hsl, ht, hleft⟩ := ih cap h
        refine ⟨a :: p, t, by simp [heq], hne, hsl, ht, ?_⟩
        intro p' c' t' heq' hc'
        cases p' with
        | nil =>
          rw [List.nil_append] at heq'
          have := ((matchAtZero_iff lit (a :: rest)).mp ⟨c', t', heq', hc'⟩).2
          exact absurd this hcap
        | cons x p'' =>
          rw [List.cons_append, List.cons_append, List.cons.injEq] at heq'
          have := hleft p'' c' t' heq'.2 hc'
          simpa using Nat.succ_le_succ this
    · rw [if_neg hb] at h
      obtain ⟨p, t, heq, hne, hsl, ht, hleft⟩ := ih cap h
      refine ⟨a :: p, t, by simp [heq], hne, hsl, ht, ?_⟩
      intro p' c' t' heq' hc'
      cases p' with
      | nil =>
        rw [List.nil_append] at heq'
        exact absurd ((beginsWith_iff lit (a :: rest)).mpr ⟨c' :: t', heq'⟩) hb
      | cons x p'' =>
        rw [List.cons_append, List.cons_append, List.cons.injEq] at heq'
        have := hleft p'' c' t' heq'.2 hc'
        simpa using Nat.succ_le_succ this

theorem searchCap_isSome_of_hasMatch {lit s : Str} (h : HasMatch lit s) :
    ∃ cap, searchCap lit s = some cap := by
  cases hc : searchCap lit s with
  | none => exact absurd h ((searchCap_eq_none_iff lit s).mp hc)
  | some c => exact ⟨c, rfl⟩

theorem extract_ok_cases {url n : Str}
    (h : extract_username_from_url url = Except.ok n) :
    searchCap "reddit.com/u/".toList url = some n ∨
    searchCap "reddit.com/user/".toList url = some n ∨
    searchCap "reddit.com/users/".toList url = some n := by
  have h' : searchFirst username_patterns url = some n := by
    unfold extract_username_from_url at h
    cases hh : searchFirst username_patterns url with
    | some m => rw [hh] at h; simp only [Except.ok.injEq] at h; rw [h]
    | none => rw [hh] at h; simp at h
  rw [username_patterns] at h'
  simp only [searchFirst] at h'
  split at h'
  · next c hc =>
    rw [Option.some.injEq] at h'
    exact Or.inl (by rw [hc, h'])
  · next hc1 =>
    split at h'
    · next c hc =>
      rw [Option.some.injEq] at h'
      exact Or.inr (Or.inl (by rw [hc, h']))
    · next hc2 =>
      split at h'
      · next c hc =>
        rw [Option.some.injEq] at h'
        exact Or.inr (Or.inr (by rw [hc, h']))
      · next hc3 => simp [searchFirst] at h'

theorem searchFirst_cons_some {p url cap : Str} {ps : List Str}
    (h : searchCap p url = some cap) : searchFirst (p :: ps) url = some cap := by
  simp [searchFirst, h]

theorem searchFirst_cons_none {p url : Str} {ps : List Str}
    (h : searchCap p url = none) : searchFirst (p :: ps) url = searchFirst ps url := by
  simp [searchFirst, h]

theorem extract_eq_ok {url cap : Str}
    (h : searchFirst username_patterns url = some cap) :
    extract_username_from_url url = Except.ok cap := by
  simp [extract_username_from_url, h]

theorem extract_eq_error {url : Str}
    (h : searchFirst username_patterns url = none) :
    extract_username_from_url url =
      Except.error ("Invalid Reddit URL format: ".toList ++ url) := by
  simp [extract_username_from_url, h]

theorem ensure_output_directory_snd (fs : FS) :
    (ensure_output_directory fs).2 = "output".toList := by
  unfold ensure_output_directory
  split <;> rfl

theorem ensure_output_directory_files (fs : FS) :
    (ensure_output_directory fs).1.files = fs.files := by
  unfold ensure_output_directory
  split <;> rfl

theorem ensure_output_directory_dirs (fs : FS) :
    (ensure_output_directory fs).1.dirs = fs.dirs ∨
    (ensure_output_directory fs).1.dirs = "output".toList :: fs.dirs := by
  unfold ensure_output_directory
  split
  · exact Or.inl rfl
  · exact Or.inr rfl

theorem ensure_output_directory_mem (fs : FS)
    (h : "output".toList ∈ fs.dirs ∨ fs.files "output".toList = none) :
    "output".toList ∈ (ensure_output_directory fs).1.dirs := by
  unfold ensure_output_directory
  split
  · next hex =>
    rcases h with hmem | hnone
    · exact hmem
    · simp only [os_path_exists, hnone, Option.isSome_none, Bool.or_false,
        decide_eq_true_eq] at hex
      exact hex
  · exact List.mem_cons_self _ _

theorem dropWhile_slashfree_append (l1 l2 : List Char)
    (h : ∀ c ∈ l1, c ≠ '/') :
    (l1 ++ l2).dropWhile (fun c => c != '/') = l2.dropWhile (fun c => c != '/') := by
  induction l1 with
  | nil => simp
  | cons a t ih =>
    have ha : (fun c => c != '/') a = true := by
      simpa using h a (List.mem_cons_self _ _)
    simp only [List.cons_append, List.dropWhile_cons, ha, if_true]
    exact ih (fun c hc => h c (List.mem_cons_of_mem _ hc))

theorem dirname_append_slashfree (pre rest : Str) (h : ∀ c ∈ rest, c ≠ '/') :
    dirname (pre ++ '/' :: rest) = pre := by
  unfold dirname
  have h1 : (pre ++ '/' :: rest).reverse = rest.reverse ++ '/' :: pre.reverse := by
    simp [List.reverse_append, List.reverse_cons, List.append_assoc]
  rw [h1, dropWhile_slashfree_append _ _ (fun c hc => h c (List.mem_reverse.mp hc))]
  simp [List.dropWhile_cons]

theorem os_path_join_rel (dir : Str) {c : Char} (rest : Str) (hc : c ≠ '/') :
    os_path_join dir (c :: rest) = dir ++ "/".toList ++ (c :: rest) := by
  have hb : beginsWith "/".toList (c :: rest) = false := by
    show (decide ('/' = c) && beginsWith ([] : Str) rest) = false
    rw [decide_eq_false (fun heq => hc heq.symm)]
    rfl
  unfold os_path_join
  rw [hb]
  simp

theorem savePath_ne_output (username : Str) :
    savePath username ≠ "output".toList := by
  intro h
  have hl := congrArg List.length h
  simp [savePath, List.length_append] at hl

theorem dirname_savePath {username : Str} (h : ∀ c ∈ username, c ≠ '/') :
    dirname (savePath username) = "output".toList := by
  have heq : savePath username =
      "output".toList ++ '/' :: (username ++ "_digital_profile.txt".toList) := rfl
  rw [heq]
  apply dirname_append_slashfree
  intro c hc
  rcases List.mem_append.mp hc with h1 | h2
  · exact h c h1
  · have hall : ∀ x ∈ "_digital_profile.txt".toList, x ≠ '/' := by decide
    exact hall c h2

theorem os_path_join_savePath {username : Str} (hne : username ≠ [])
    (hsl : ∀ c ∈ username, c ≠ '/') :
    os_path_join "output".toList (username ++ "_digital_profile.txt".toList) =
      savePath username := by
  rcases username with _ | ⟨c, n'⟩
  · exact absurd rfl hne
  · rw [List.cons_append, os_path_join_rel _ _ (hsl c (List.mem_cons_self _ _))]
    rfl

/-! ### Claim theorems -/

/-- C5: for every URL in which one of the three pattern shapes
`.../u/<name>`, `.../user/<name>`, `.../users/<name>` occurs, the
Identity Resolver returns exactly the first captured group of the first
matching pattern in order (`u`, then `user`, then `users`); for every
URL matching none of the shapes it fails with an "invalid format"
error. -/
theorem extract_username_from_url_spec :
    (∀ url : Str, HasMatch "reddit.com/u/".toList url →
      ∃ n, extract_username_from_url url = Except.ok n ∧
        IsFirstCapture "reddit.com/u/".toList url n) ∧
    (∀ url : Str, ¬ HasMatch "reddit.com/u/".toList url →
      HasMatch "reddit.com/user/".toList url →
      ∃ n, extract_username_from_url url = Except.ok n ∧
        IsFirstCapture "reddit.com/user/".toList url n) ∧
    (∀ url : Str, ¬ HasMatch "reddit.com/u/".toList url →
      ¬ HasMatch "reddit.com/user/".toList url →
      HasMatch "reddit.com/users/".toList url →
      ∃ n, extract_username_from_url url = Except.ok n ∧
        IsFirstCapture "reddit.com/users/".toList url n) ∧
    (∀ url : Str, ¬ HasMatch "reddit.com/u/".toList url →
      ¬ HasMatch "reddit.com/user/".toList url →
      ¬ HasMatch "reddit.com/users/".toList url →
      extract_username_from_url url =
        Except.error ("Invalid Reddit URL format: ".toList ++ url)) := by
  refine ⟨?_, ?_, ?_, ?_⟩
  · intro url h
    obtain ⟨cap, hc⟩ := searchCap_isSome_of_hasMatch h
    have hsf : searchFirst username_patterns url = some cap := by
      rw [username_patterns]
      exact searchFirst_cons_some hc
    exact ⟨cap, extract_eq_ok hsf, searchCap_eq_some _ _ _ hc⟩
  · intro url h1 h2
    have hn1 := (searchCap_eq_none_iff "reddit.com/u/".toList url).mpr h1
    obtain ⟨cap, hc⟩ := searchCap_isSome_of_hasMatch h2
    have hsf : searchFirst username_patterns url = some cap := by
      rw [username_patterns, searchFirst_cons_none hn1]
      exact searchFirst_cons_some hc
    exact ⟨cap, extract_eq_ok hsf, searchCap_eq_some _ _ _ hc⟩
  · intro url h1 h2 h3
    have hn1 := (searchCap_eq_none_iff "reddit.com/u/".toList url).mpr h1
    have hn2 := (searchCap_eq_none_iff "reddit.com/user/".toList url).mpr h2
    obtain ⟨cap, hc⟩ := searchCap_isSome_of_hasMatch h3
    have hsf : searchFirst username_patterns url = some cap := by
      rw [username_patterns, searchFirst_cons_none hn1, searchFirst_cons_none hn2]
      exact searchFirst_cons_some hc
    exact ⟨cap, extract_eq_ok hsf, searchCap_eq_some _ _ _ hc⟩
  · intro url h1 h2 h3
    have hn1 := (searchCap_eq_none_iff "reddit.com/u/".toList url).mpr h1
    have hn2 := (searchCap_eq_none_iff "reddit.com/user/".toList url).mpr h2
    have hn3 := (searchCap_eq_none_iff "reddit.com/users/".toList url).mpr h3
    have hsf : searchFirst username_patterns url = none := by
      rw [username_patterns, searchFirst_cons_none hn1, searchFirst_cons_none hn2,
        searchFirst_cons_none hn3]
      rfl
    exact extract_eq_error hsf

/-- Witness for C5: the `/user/` shape on a concrete URL, where the
`/u/` pattern does not match. -/
theorem extract_username_from_url_spec_witness :
    ∃ n, extract_username_from_url "https://reddit.com/user/alice".toList = Except.ok n ∧
      IsFirstCapture "reddit.com/user/".toList "https://reddit.com/user/alice".toList n :=
  extract_username_from_url_spec.2.1 "https://reddit.com/user/alice".toList
    ((searchCap_eq_none_iff "reddit.com/u/".toList "https://reddit.com/user/alice".toList).mp
      (by decide))
    ⟨"https://".toList, 'a', "lice".toList, by decide, by decide⟩

/-- C9: every username returned by the Identity Resolver is non-empty
and free of `'/'`, so every report file the Report Writer successfully
writes for it is a file directly inside the output directory and can
never escape it. -/
theorem extracted_username_path_safe :
    ∀ url n : Str, extract_username_from_url url = Except.ok n →
      n ≠ [] ∧ (∀ c ∈ n, c ≠ '/') ∧
      ∀ (persona ts : Str) (fs fs' : FS) (path : Str),
        save_persona persona n ts fs = Except.ok (fs', path) →
        DirectlyInside "output".toList path := by
  intro url n h
  have hprops : n ≠ [] ∧ ∀ c ∈ n, c ≠ '/' := by
    rcases extract_ok_cases h with hc | hc | hc <;>
    · obtain ⟨p, t, _, hne, hsl, _, _⟩ := searchCap_eq_some _ _ _ hc
      exact ⟨hne, hsl⟩
  refine ⟨hprops.1, hprops.2, ?_⟩
  intro persona ts fs fs' path hsave
  simp only [save_persona, ensure_output_directory_snd,
    os_path_join_savePath hprops.1 hprops.2] at hsave
  split at hsave
  · rw [Except.ok.injEq, Prod.mk.injEq] at hsave
    rw [← hsave.2]
    refine ⟨n ++ "_digital_profile.txt".toList, rfl, ?_, ?_⟩
    · intro hcontra
      have := congrArg List.length hcontra
      simp [List.length_append] at this
    · intro c hc
      rcases List.mem_append.mp hc with h1 | h2
      · exact hprops.2 c h1
      · have hall : ∀ x ∈ "_digital_profile.txt".toList, x ≠ '/' := by decide
        exact hall c h2
  · exact absurd hsave (by simp)

/-- Witness for C9 at a concrete URL and a concrete successful save. -/
theorem extracted_username_path_safe_witness :
    DirectlyInside "output".toList (savePath "alice".toList) :=
  (extracted_username_path_safe "https://reddit.com/user/alice".toList "alice".toList
    rfl).2.2 "P".toList "t".toList fs0 _ (savePath "alice".toList) rfl

/-- Counterexample for C7: `os.path.join` discards the output directory
for a username beginning with `'/'` (the report lands outside `output`,
at an absolute path); a username containing `'/'` elsewhere makes the
write fail on the missing intermediate directory; and when `output`
exists as a plain file, `os.path.exists` is satisfied, no directory is
created, and the write fails. -/
theorem save_persona_failure_cases :
    (savedPath (save_persona "P".toList "/abs".toList "t".toList fsOutDir) =
        some "/abs_digital_profile.txt".toList ∧
      beginsWith "output".toList "/abs_digital_profile.txt".toList = false) ∧
    savedPath (save_persona "P".toList "a/b".toList "t".toList fsOutDir) = none ∧
    savedPath (save_persona "P".toList "alice".toList "t".toList fsOutFile) = none := by
  decide

/-- C7 (amended): for every username that is non-empty and free of
`'/'`, on any file system where `output` is an existing directory or
absent (not a plain file) and no directory occupies the report path,
the Report Writer writes the file at the deterministic path
`output/<username>_digital_profile.txt`, whose content is exactly the
generated text followed by the trailing `Profile Generated: <ts>` line,
installed regardless of what was previously at that path (overwrite,
not append), leaves every other file unchanged, ensures the output
directory exists (no error if already present as a directory), and
returns the file path.  (For a username beginning with `'/'` the path
escapes `output`; for other usernames containing `'/'`, or when
`output` is a plain file, the write fails.) -/
theorem save_persona_spec :
    ∀ (persona username ts : Str) (fs : FS),
      username ≠ [] → (∀ c ∈ username, c ≠ '/') →
      ("output".toList ∈ fs.dirs ∨ fs.files "output".toList = none) →
      savePath username ∉ fs.dirs →
      ∃ fs', save_persona persona username ts fs =
          Except.ok (fs', savePath username) ∧
        fs'.files (savePath username) =
          some (persona ++ "\n\nProfile Generated: ".toList ++ ts) ∧
        (∀ q : Str, q ≠ savePath username → fs'.files q = fs.files q) ∧
        "output".toList ∈ fs'.dirs ∧
        (∀ d ∈ fs.dirs, d ∈ fs'.dirs) := by
  intro persona username ts fs hne hsl hout hnotdir
  have hmem := ensure_output_directory_mem fs hout
  have hcond : (dirname (savePath username) = [] ∨
      dirname (savePath username) ∈ (ensure_output_directory fs).1.dirs) ∧
      savePath username ∉ (ensure_output_directory fs).1.dirs := by
    constructor
    · right
      rw [dirname_savePath hsl]
      exact hmem
    · intro hin
      rcases ensure_output_directory_dirs fs with he | he
      · rw [he] at hin
        exact hnotdir hin
      · rw [he] at hin
        rcases List.mem_cons.mp hin with heq | hin'
        · exact savePath_ne_output username heq
        · exact hnotdir hin'
  refine ⟨{ (ensure_output_directory fs).1 with
      files := fun p =>
        if p = savePath username then
          some (persona ++ "\n\nProfile Generated: ".toList ++ ts)
        else (ensure_output_directory fs).1.files p }, ?_, ?_, ?_, hmem, ?_⟩
  · simp only [save_persona, ensure_output_directory_snd,
      os_path_join_savePath hne hsl]
    rw [if_pos hcond]
  · simp
  · intro q hq
    simp only [if_neg hq]
    rw [ensure_output_directory_files]
  · intro d hd
    rcases ensure_output_directory_dirs fs with he | he
    · rw [he]; exact hd
    · rw [he]; exact List.mem_cons_of_mem _ hd

/-- Witness for C7 (amended) on an empty file system. -/
theorem save_persona_spec_witness :
    ∃ fs', save_persona "P".toList "alice".toList "2025-07-14 12:00:00".toList fs0 =
        Except.ok (fs', savePath "alice".toList) ∧
      fs'.files (savePath "alice".toList) =
        some ("P".toList ++ "\n\nProfile Generated: ".toList ++
          "2025-07-14 12:00:00".toList) ∧
      (∀ q : Str, q ≠ savePath "alice".toList → fs'.files q = fs0.files q) ∧
      "output".toList ∈ fs'.dirs ∧
      (∀ d ∈ fs0.dirs, d ∈ fs'.dirs) :=
  save_persona_spec "P".toList "alice".toList "2025-07-14 12:00:00".toList fs0
    (by decide) (by decide) (Or.inr rfl) (by decide)

/-- C8: the counts stored in every Collection Result returned by the
Content Collector equal the lengths of the collected sequences,
regardless of the requested limit. -/
theorem scrape_user_data_counts :
    ∀ (username : Str) (limit : Nat) (o : Oracles) (ud : UserData),
      (scrape_user_data username limit o).2.2 = Except.ok ud →
      ud.total_posts = ud.posts.length ∧ ud.total_comments = ud.comments.length := by
  intro username limit o ud h
  unfold scrape_user_data at h
  by_cases hu : o.userExists = true
  · rw [if_pos hu] at h
    simp only [Except.ok.injEq] at h
    rw [← h]
    exact ⟨rfl, rfl⟩
  · rw [if_neg hu] at h
    exact absurd h (by simp)

/-- Witness for C8 on a concrete successful collection. -/
theorem scrape_user_data_counts_witness :
    udEmpty.total_posts = udEmpty.posts.length ∧
      udEmpty.total_comments = udEmpty.comments.length :=
  scrape_user_data_counts "alice".toList 100 oraclesOk udEmpty rfl

theorem isPostLine_append (x : Str) : isPostLine ("POST [".toList ++ x) = true := by
  unfold isPostLine
  exact beginsWith_append _ _

theorem isCommentLine_append (x : Str) :
    isCommentLine ("COMMENT [".toList ++ x) = true := by
  unfold isCommentLine
  exact beginsWith_append _ _

theorem isPostLine_comment_append (x : Str) :
    isPostLine ("COMMENT [".toList ++ x) = false := rfl

theorem isCommentLine_post_append (x : Str) :
    isCommentLine ("POST [".toList ++ x) = false := rfl

theorem postLine_shape {p : Post} {l : Str} (h : postLine p = some l) :
    ∃ x, l = "POST [".toList ++ x := by
  unfold postLine at h
  split at h
  · rw [Option.some.injEq] at h
    exact ⟨p.id ++ ("]: ".toList ++ (p.title ++ (" - ".toList ++ p.selftext.take 500))),
      by rw [← h]; simp [List.append_assoc]⟩
  · split at h
    · rw [Option.some.injEq] at h
      exact ⟨p.id ++ ("]: ".toList ++ p.title), by rw [← h]; simp [List.append_assoc]⟩
    · exact absurd h (by simp)

theorem commentLine_shape {c : Comment} {l : Str} (h : commentLine c = some l) :
    ∃ x, l = "COMMENT [".toList ++ x := by
  unfold commentLine at h
  split at h
  · rw [Option.some.injEq] at h
    exact ⟨c.id ++ ("]: ".toList ++ c.body.take 500),
      by rw [← h]; simp [List.append_assoc]⟩
  · exact absurd h (by simp)

theorem postLine_isSome_of_title {p : Post} (h : p.title ≠ []) :
    ∃ x, postLine p = some ("POST [".toList ++ x) := by
  unfold postLine
  by_cases hs : p.selftext ≠ []
  · rw [if_pos ⟨h, hs⟩]
    exact ⟨p.id ++ ("]: ".toList ++ (p.title ++ (" - ".toList ++ p.selftext.take 500))),
      by simp [List.append_assoc]⟩
  · rw [if_neg (fun hc => hs hc.2), if_pos h]
    exact ⟨p.id ++ ("]: ".toList ++ p.title), by simp [List.append_assoc]⟩

theorem countP_isPostLine_comments (cs : List Comment) :
    ((cs.filterMap commentLine).countP isPostLine) = 0 := by
  rw [List.countP_eq_zero]
  intro l hl
  obtain ⟨c, _, hc⟩ := List.mem_filterMap.mp hl
  obtain ⟨x, rfl⟩ := commentLine_shape hc
  intro hcontra
  rw [isPostLine_comment_append x] at hcontra
  exact Bool.false_ne_true hcontra

theorem countP_isCommentLine_posts (ps : List Post) :
    ((ps.filterMap postLine).countP isCommentLine) = 0 := by
  rw [List.countP_eq_zero]
  intro l hl
  obtain ⟨p, _, hp⟩ := List.mem_filterMap.mp hl
  obtain ⟨x, rfl⟩ := postLine_shape hp
  intro hcontra
  rw [isCommentLine_post_append x] at hcontra
  exact Bool.false_ne_true hcontra

theorem length_filterMap_postLine :
    ∀ ps : List Post, (∀ p ∈ ps, p.title ≠ []) →
      (ps.filterMap postLine).length = ps.length ∧
      ∀ l ∈ ps.filterMap postLine, isPostLine l = true := by
  intro ps
  induction ps with
  | nil => intro _; simp
  | cons p ps ih =>
    intro h
    have hp : p.title ≠ [] := h p (List.mem_cons_self _ _)
    obtain ⟨x, hx⟩ := postLine_isSome_of_title hp
    have ih' := ih (fun q hq => h q (List.mem_cons_of_mem _ hq))
    rw [List.filterMap_cons, hx]
    constructor
    · simp [ih'.1]
    · intro l hl
      rcases List.mem_cons.mp hl with rfl | hl
      · exact isPostLine_append x
      · exact ih'.2 l hl

/-- C6: the excerpt has at most `min(N,50)` post lines and at most
`min(M,50)` comment lines; comments with body length ≤ 10 are excluded;
every included body text is truncated to at most 500 characters; and
every line of the excerpt comes from one of the first 50 posts or the
first 50 comments. -/
theorem prepare_content_excerpt_bounds :
    ∀ ud : UserData,
      (prepare_content_lines ud).countP isPostLine ≤ min ud.posts.length 50 ∧
      (prepare_content_lines ud).countP isCommentLine ≤ min ud.comments.length 50 ∧
      (∀ c : Comment, c.body.length ≤ 10 → commentLine c = none) ∧
      (∀ (c : Comment) (l : Str), commentLine c = some l →
        ∃ b, l = "COMMENT [".toList ++ c.id ++ "]: ".toList ++ b ∧ b.length ≤ 500) ∧
      (∀ (p : Post) (l : Str), postLine p = some l →
        ∃ b, b.length ≤ 500 ∧
          (l = "POST [".toList ++ p.id ++ "]: ".toList ++ p.title ++ " - ".toList ++ b ∨
           l = "POST [".toList ++ p.id ++ "]: ".toList ++ p.title)) ∧
      (∀ l ∈ prepare_content_lines ud,
        (∃ p ∈ ud.posts.take 50, postLine p = some l) ∨
        (∃ c ∈ ud.comments.take 50, commentLine c = some l)) := by
  intro ud
  refine ⟨?_, ?_, ?_, ?_, ?_, ?_⟩
  · unfold prepare_content_lines
    rw [List.countP_append, countP_isPostLine_comments, Nat.add_zero, Nat.min_comm]
    calc ((ud.posts.take 50).filterMap postLine).countP isPostLine
        ≤ ((ud.posts.take 50).filterMap postLine).length := List.countP_le_length _
      _ ≤ (ud.posts.take 50).length := List.length_filterMap_le _ _
      _ = min 50 ud.posts.length := List.length_take _ _
  · unfold prepare_content_lines
    rw [List.countP_append, countP_isCommentLine_posts, Nat.zero_add, Nat.min_comm]
    calc ((ud.comments.take 50).filterMap commentLine).countP isCommentLine
        ≤ ((ud.comments.take 50).filterMap commentLine).length := List.countP_le_length _
      _ ≤ (ud.comments.take 50).length := List.length_filterMap_le _ _
      _ = min 50 ud.comments.length := List.length_take _ _
  · intro c hlen
    unfold commentLine
    rw [if_neg]
    rintro ⟨_, hgt⟩
    omega
  · intro c l h
    unfold commentLine at h
    split at h
    · rw [Option.some.injEq] at h
      exact ⟨c.body.take 500, h.symm, List.length_take_le _ _⟩
    · exact absurd h (by simp)
  · intro p l h
    unfold postLine at h
    split at h
    · rw [Option.some.injEq] at h
      exact ⟨p.selftext.take 500, List.length_take_le _ _, Or.inl h.symm⟩
    · split at h
      · rw [Option.some.injEq] at h
        exact ⟨[], by simp, Or.inr h.symm⟩
      · exact absurd h (by simp)
  · intro l hl
    rcases List.mem_append.mp hl with h | h
    · obtain ⟨p, hp, hpl⟩ := List.mem_filterMap.mp h
      exact Or.inl ⟨p, hp, hpl⟩
    · obtain ⟨c, hc, hcl⟩ := List.mem_filterMap.mp h
      exact Or.inr ⟨c, hc, hcl⟩

/-- Witness for C6: a short comment is excluded, a long one is included
truncated. -/
theorem prepare_content_excerpt_bounds_witness :
    commentLine commentShort = none ∧
    ∃ b, ("COMMENT [".toList ++ commentLong.id ++ "]: ".toList ++ commentLong.body.take 500) =
        "COMMENT [".toList ++ commentLong.id ++ "]: ".toList ++ b ∧ b.length ≤ 500 :=
  ⟨(prepare_content_excerpt_bounds udSample).2.2.1 commentShort (by decide),
   (prepare_content_excerpt_bounds udSample).2.2.2.1 commentLong _ rfl⟩

/-- Counterexample for C4: a Collection Result with exactly 3 posts
(one of them with an empty title and a non-empty body) and 0 comments
yields only 2 POST lines, not one line per post. -/
theorem prepare_content_drops_untitled_post :
    udThreePosts.posts.length = 3 ∧ udThreePosts.comments.length = 0 ∧
    (prepare_content_lines udThreePosts).countP isPostLine = 2 ∧
    ¬ (prepare_content_lines udThreePosts).countP isPostLine = 3 := by decide

theorem postLine_none_of_untitled {p : Post} (h : p.title = []) :
    postLine p = none := by
  unfold postLine
  rw [if_neg (fun hc => hc.1 h), if_neg (fun hc => hc h)]

theorem length_filterMap_postLine_countP :
    ∀ ps : List Post,
      (ps.filterMap postLine).length = ps.countP (fun p => p.title ≠ []) ∧
      ∀ l ∈ ps.filterMap postLine, isPostLine l = true := by
  intro ps
  induction ps with
  | nil => simp
  | cons p ps ih =>
    by_cases ht : p.title = []
    · rw [List.filterMap_cons, postLine_none_of_untitled ht, List.countP_cons]
      exact ⟨by simp [ih.1, ht], ih.2⟩
    · obtain ⟨x, hx⟩ := postLine_isSome_of_title ht
      rw [List.filterMap_cons, hx, List.countP_cons]
      constructor
      · simp [ih.1, ht]
      · intro l hl
        rcases List.mem_cons.mp hl with rfl | hl
        · exact isPostLine_append x
        · exact ih.2 l hl

/-- C4 (amended): for every Collection Result, the excerpt contains one
line for each of the first 50 posts that has a non-empty title — the
POST-line count equals the number of titled posts among the first 50,
each titled post among the first 50 contributing its line to the
excerpt — while a post with an empty title contributes no line even if
it has a body; each emitted post line combines the post's id, its
title, and (if present) the first 500 characters of its body; and a
result with exactly 3 posts, all with non-empty titles, and 0 comments
yields exactly 3 POST lines and no COMMENT lines. -/
theorem prepare_content_post_lines :
    ∀ ud : UserData,
      ((prepare_content_lines ud).countP isPostLine =
        (ud.posts.take 50).countP (fun p => p.title ≠ [])) ∧
      (∀ p : Post, p.title = [] → postLine p = none) ∧
      (∀ p ∈ ud.posts.take 50, p.title ≠ [] →
        ∃ l, postLine p = some l ∧ l ∈ prepare_content_lines ud) ∧
      (∀ (p : Post) (l : Str), postLine p = some l →
        ∃ b, b.length ≤ 500 ∧
          (l = "POST [".toList ++ p.id ++ "]: ".toList ++ p.title ++ " - ".toList ++ b ∨
           l = "POST [".toList ++ p.id ++ "]: ".toList ++ p.title)) ∧
      (ud.comments = [] → (prepare_content_lines ud).countP isCommentLine = 0) ∧
      ((∀ p ∈ ud.posts, p.title ≠ []) → ud.posts.length = 3 → ud.comments = [] →
        (prepare_content_lines ud).countP isPostLine = 3 ∧
        (prepare_content_lines ud).countP isCommentLine = 0) := by
  intro ud
  obtain ⟨hlen, hmem⟩ := length_filterMap_postLine_countP (ud.posts.take 50)
  have hcount : (prepare_content_lines ud).countP isPostLine =
      (ud.posts.take 50).countP (fun p => p.title ≠ []) := by
    unfold prepare_content_lines
    rw [List.countP_append, countP_isPostLine_comments, Nat.add_zero,
      List.countP_eq_length.mpr (fun a ha => hmem a ha), hlen]
  have hccount : ud.comments = [] → (prepare_content_lines ud).countP isCommentLine = 0 := by
    intro hc
    unfold prepare_content_lines
    rw [hc]
    simp [countP_isCommentLine_posts]
  refine ⟨hcount, fun p hp => postLine_none_of_untitled hp, ?_, ?_, hccount, ?_⟩
  · intro p hp ht
    obtain ⟨x, hx⟩ := postLine_isSome_of_title ht
    refine ⟨_, hx, ?_⟩
    unfold prepare_content_lines
    exact List.mem_append_left _ (List.mem_filterMap.mpr ⟨p, hp, hx⟩)
  · intro p l hpl
    unfold postLine at hpl
    split at hpl
    · rw [Option.some.injEq] at hpl
      exact ⟨p.selftext.take 500, List.length_take_le _ _, Or.inl hpl.symm⟩
    · split at hpl
      · rw [Option.some.injEq] at hpl
        exact ⟨[], by simp, Or.inr hpl.symm⟩
      · exact absurd hpl (by simp)
  · intro hall h3 hc
    refine ⟨?_, hccount hc⟩
    rw [hcount]
    have htake : ud.posts.take 50 = ud.posts :=
      List.take_of_length_le (by omega)
    rw [htake, List.countP_eq_length.mpr (fun a ha => by simpa using hall a ha), h3]

/-- Witness for C4 (amended) on the mixed-title fixture and on the
all-titled fixture. -/
theorem prepare_content_post_lines_witness :
    ((prepare_content_lines udThreePosts).countP isPostLine =
      (udThreePosts.posts.take 50).countP (fun p => p.title ≠ [])) ∧
    postLine postNoTitle = none ∧
    (∃ l, postLine postA = some l ∧ l ∈ prepare_content_lines udThreePosts) ∧
    ((prepare_content_lines udThreeTitled).countP isPostLine = 3 ∧
     (prepare_content_lines udThreeTitled).countP isCommentLine = 0) :=
  ⟨(prepare_content_post_lines udThreePosts).1,
   (prepare_content_post_lines udThreePosts).2.1 postNoTitle rfl,
   (prepare_content_post_lines udThreePosts).2.2.1 postA (by decide) (by decide),
   (prepare_content_post_lines udThreeTitled).2.2.2.2.2 (by decide) rfl rfl⟩

/-- C2 (amended): if the comments fetch fails and the posts fetch
succeeds, the Collection Result carries exactly the successfully fetched
posts (possibly empty, when the user has none) and exactly the comments
yielded before the iterator failed (empty only when it failed before
yielding any), with `total_comments` equal to that partial count; the
failure is recorded as a printed warning and is not propagated (the
result is `ok`); and the pipeline still reaches the Profile Synthesizer
(the `max_tokens=4000` synthesis call is issued) whenever the
credentials are present and the test call succeeds. -/
theorem scrape_comments_failure_degrades :
    ∀ (username : Str) (limit : Nat) (o : Oracles) (e : Str) (ps : List Post)
      (cs : List Comment),
      o.commentsFetch limit = (cs, some e) → o.postsFetch limit = (ps, none) →
      o.userExists = true →
      ((scrape_user_data username limit o).2.2 =
        Except.ok { username := username, posts := ps, comments := cs,
                    total_posts := ps.length, total_comments := cs.length } ∧
       (scrape_user_data username limit o).2.1 =
         ["Error scraping comments: ".toList ++ e]) ∧
      (∀ (cfg : Config) (url outArg : Str),
        cfg.redditClientId ≠ none → cfg.redditClientSecret ≠ none →
        cfg.groqApiKey ≠ none →
        extract_username_from_url url = Except.ok username →
        o.llmTest = Except.ok () →
        Event.llmCall 4000 ∈ (cli_run cfg url outArg limit o).1) := by
  intro username limit o e ps cs hce hpe hue
  have hscrape : scrape_user_data username limit o =
      ([Event.fetchUser, Event.fetchPosts, Event.fetchComments],
       ["Error scraping comments: ".toList ++ e],
       Except.ok { username := username, posts := ps, comments := cs,
                   total_posts := ps.length, total_comments := cs.length }) := by
    simp [scrape_user_data, hue, hpe, hce]
  refine ⟨⟨by rw [hscrape], by rw [hscrape]⟩, ?_⟩
  intro cfg url outArg h1 h2 h3 hurl hllm
  rcases Option.ne_none_iff_exists'.mp h3 with ⟨g, hg⟩
  cases hgen : o.llmGen (prepare_content
      { username := username, posts := ps, comments := cs,
        total_posts := ps.length, total_comments := cs.length }) <;>
    simp [cli_run, h1, h2, hurl, hscrape, hg, hllm, generate_persona, hgen]

/-- Counterexample for C2: a successful posts fetch can yield no posts,
so the post sequence of the Collection Result is empty; and a comments
fetch that raises mid-iteration leaves the comments appended before the
failure, so the comment sequence is non-empty and `total_comments ≠ 0`. -/
theorem scrape_comments_failure_counterexamples :
    (∃ ud, (scrape_user_data "alice".toList 100 oraclesCommentsFail).2.2 = Except.ok ud ∧
      ¬ ud.posts ≠ []) ∧
    (∃ ud, (scrape_user_data "alice".toList 100 oraclesCommentsMidFail).2.2 = Except.ok ud ∧
      ud.comments ≠ [] ∧ ud.total_comments ≠ 0) :=
  ⟨⟨{ username := "alice".toList, posts := [], comments := [],
      total_posts := 0, total_comments := 0 }, rfl, fun h => h rfl⟩,
   ⟨{ username := "alice".toList, posts := [postA], comments := [commentLong],
      total_posts := 1, total_comments := 1 }, rfl,
    fun h => List.noConfusion h, one_ne_zero⟩⟩

/-- Witness for C2 (amended) on concrete oracles with a mid-stream
comments failure. -/
theorem scrape_comments_failure_degrades_witness :
    (scrape_user_data "alice".toList 100 oraclesCommentsMidFail).2.2 =
      Except.ok { username := "alice".toList, posts := [postA], comments := [commentLong],
                  total_posts := 1, total_comments := 1 } ∧
    Event.llmCall 4000 ∈
      (cli_run cfgFull "https://reddit.com/user/alice".toList "output".toList 100
        oraclesCommentsMidFail).1 :=
  ⟨(scrape_comments_failure_degrades "alice".toList 100 oraclesCommentsMidFail
      "HTTP 503".toList [postA] [commentLong] rfl rfl rfl).1.1,
   (scrape_comments_failure_degrades "alice".toList 100 oraclesCommentsMidFail
      "HTTP 503".toList [postA] [commentLong] rfl rfl rfl).2 cfgFull
      "https://reddit.com/user/alice".toList "output".toList
      (by decide) (by decide) (by decide) rfl rfl⟩

/-- C1 (amended): a missing Groq key makes the Streamlit shell fail with
a configuration error before any content-API call (its event trace is
empty); the CLI shell has no such pre-check: with the Groq key absent
and Reddit credentials present, the post and comment fetches are still
issued and the run exits with code 1 before any LLM call. -/
theorem groq_key_absent_behavior :
    (∀ (cfg : Config) (url : Str) (limit : Nat) (o : Oracles),
      cfg.groqApiKey = none →
      (streamlit_run cfg url limit o).1 = [] ∧
      (streamlit_run cfg url limit o).2 ≠ Outcome.success ∧
      (url ≠ [] → ¬(cfg.redditClientId = none ∨ cfg.redditClientSecret = none) →
        (streamlit_run cfg url limit o).2 = Outcome.configError)) ∧
    (∀ (cfg : Config) (url outArg username : Str) (depth : Nat) (o : Oracles),
      cfg.groqApiKey = none →
      cfg.redditClientId ≠ none → cfg.redditClientSecret ≠ none →
      extract_username_from_url url = Except.ok username →
      o.userExists = true →
      (cli_run cfg url outArg depth o).2 = 1 ∧
      Event.fetchPosts ∈ (cli_run cfg url outArg depth o).1 ∧
      Event.fetchComments ∈ (cli_run cfg url outArg depth o).1 ∧
      ∀ ev ∈ (cli_run cfg url outArg depth o).1, ev.isLLMCall = false) := by
  constructor
  · intro cfg url limit o hg
    unfold streamlit_run
    by_cases hu : url = []
    · rw [if_pos hu]
      exact ⟨rfl, by decide, fun hne _ => absurd hu hne⟩
    · rw [if_neg hu]
      by_cases hr : cfg.redditClientId = none ∨ cfg.redditClientSecret = none
      · rw [if_pos hr]
        exact ⟨rfl, by decide, fun _ _ => rfl⟩
      · rw [if_neg hr, if_pos hg]
        exact ⟨rfl, by decide, fun _ _ => rfl⟩
  · intro cfg url outArg username depth o hg h1 h2 hurl hue
    simp [cli_run, h1, hurl, hg, scrape_user_data, hue, Event.isLLMCall]

/-- Counterexample for C1: with the Groq key absent, a CLI run still
issues the post and comment fetches for the target user. -/
theorem cli_fetches_despite_missing_groq_key :
    Event.fetchPosts ∈
      (cli_run cfgNoGroq "https://reddit.com/user/alice".toList "output".toList 100 oraclesOk).1 ∧
    Event.fetchComments ∈
      (cli_run cfgNoGroq "https://reddit.com/user/alice".toList "output".toList 100 oraclesOk).1 ∧
    (cli_run cfgNoGroq "https://reddit.com/user/alice".toList "output".toList 100 oraclesOk).2 = 1 := by
  decide

/-- Witness for C1 (amended) at a concrete configuration. -/
theorem groq_key_absent_behavior_witness :
    (streamlit_run cfgNoGroq "https://reddit.com/user/alice".toList 500 oraclesOk).2 =
      Outcome.configError ∧
    (cli_run cfgNoGroq "https://reddit.com/user/alice".toList "output".toList 100 oraclesOk).2 = 1 :=
  ⟨(groq_key_absent_behavior.1 cfgNoGroq "https://reddit.com/user/alice".toList 500 oraclesOk
      rfl).2.2 (by decide) (by decide),
   (groq_key_absent_behavior.2 cfgNoGroq "https://reddit.com/user/alice".toList "output".toList
      "alice".toList 100 oraclesOk rfl (by decide) (by decide) rfl rfl).1⟩

/-- C3: the parsed `--output` value is ignored by the pipeline — runs
with different `--output` values are identical, and a successful run
writes the profile under the hard-coded `output` directory, not under
the requested one. -/
theorem cli_output_flag_ignored :
    (∀ (cfg : Config) (url a b : Str) (depth : Nat) (o : Oracles),
      cli_run cfg url a depth o = cli_run cfg url b depth o) ∧
    ((cli_run cfgFull "https://reddit.com/user/alice".toList "custom_dir".toList 100
        oraclesOk).2 = 0 ∧
     (cli_run cfgFull "https://reddit.com/user/alice".toList "custom_dir".toList 100
        oraclesOk).1.filter Event.isFileWrite =
          [Event.fileWrite (savePath "alice".toList)] ∧
     beginsWith "custom_dir".toList (savePath "alice".toList) = false ∧
     beginsWith "output/".toList (savePath "alice".toList) = true) :=
  ⟨fun _ _ _ _ _ _ => rfl, by decide⟩

theorem scrape_events_no_llm (username : Str) (limit : Nat) (o : Oracles) :
    (scrape_user_data username limit o).1.filter Event.isLLMCall = [] := by
  unfold scrape_user_data
  split <;> rfl

/-- C10: every successful run of either shell performs exactly two LLM
chat-completion calls — the extra one-token test call issued before the
Profile Synthesizer is invoked, followed by the `max_tokens=4000`
synthesis call. -/
theorem runs_make_two_llm_calls :
    (∀ (cfg : Config) (url : Str) (limit : Nat) (o : Oracles),
      (streamlit_run cfg url limit o).2 = Outcome.success →
      (streamlit_run cfg url limit o).1.filter Event.isLLMCall =
        [Event.llmCall 1, Event.llmCall 4000]) ∧
    (∀ (cfg : Config) (url outArg : Str) (depth : Nat) (o : Oracles),
      (cli_run cfg url outArg depth o).2 = 0 →
      (cli_run cfg url outArg depth o).1.filter Event.isLLMCall =
        [Event.llmCall 1, Event.llmCall 4000]) := by
  constructor
  · intro cfg url limit o h
    unfold streamlit_run at h ⊢
    by_cases hu : url = []
    · rw [if_pos hu] at h; simp at h
    · rw [if_neg hu] at h ⊢
      by_cases hr : cfg.redditClientId = none ∨ cfg.redditClientSecret = none
      · rw [if_pos hr] at h; simp at h
      · rw [if_neg hr] at h ⊢
        by_cases hg : cfg.groqApiKey = none
        · rw [if_pos hg] at h; simp at h
        · rw [if_neg hg] at h ⊢
          rcases hurl : extract_username_from_url url with msg | username <;>
            simp only [hurl] at h ⊢
          · simp at h
          · rcases hs : (scrape_user_data username limit o).2.2 with es | ud <;>
              simp only [hs] at h ⊢
            · simp at h
            · rcases hllm : o.llmTest with et | tu <;> simp only [hllm] at h ⊢
              · simp at h
              · rcases hgen : o.llmGen (prepare_content ud) with eg | tg <;>
                  simp only [generate_persona, hgen] at h ⊢
                · simp at h
                · rw [List.filter_append, List.filter_append, List.filter_append,
                    scrape_events_no_llm]
                  simp [List.filter_cons, Event.isLLMCall]
  · intro cfg url outArg depth o h
    unfold cli_run at h ⊢
    by_cases hr : cfg.redditClientId = none
    · rw [if_pos hr] at h; simp at h
    · rw [if_neg hr] at h ⊢
      rcases hurl : extract_username_from_url url with msg | username <;>
        simp only [hurl] at h ⊢
      · simp at h
      · rcases hs : (scrape_user_data username depth o).2.2 with es | ud <;>
          simp only [hs] at h ⊢
        · simp at h
        · rcases hg : cfg.groqApiKey with _ | g <;> simp only [hg] at h ⊢
          · simp at h
          · rcases hllm : o.llmTest with et | tu <;> simp only [hllm] at h ⊢
            · simp at h
            · rcases hgen : o.llmGen (prepare_content ud) with eg | tg <;>
                simp only [generate_persona, hgen] at h ⊢
              · simp at h
              · rw [List.filter_append, List.filter_append, List.filter_append,
                  scrape_events_no_llm]
                simp [List.filter_cons, Event.isLLMCall]

/-- Witness for C10 on concrete successful runs of both shells. -/
theorem runs_make_two_llm_calls_witness :
    (streamlit_run cfgFull "https://reddit.com/user/alice".toList 500 oraclesOk).1.filter
        Event.isLLMCall = [Event.llmCall 1, Event.llmCall 4000] ∧
    (cli_run cfgFull "https://reddit.com/user/alice".toList "output".toList 100
        oraclesOk).1.filter Event.isLLMCall = [Event.llmCall 1, Event.llmCall 4000] :=
  ⟨runs_make_two_llm_calls.1 cfgFull "https://reddit.com/user/alice".toList 500 oraclesOk rfl,
   runs_make_two_llm_calls.2 cfgFull "https://reddit.com/user/alice".toList "output".toList 100
     oraclesOk rfl⟩

end RedditPersona
